import Mathlib

/-!
Shallow embedding of the test-management core of `app.py` (SQLite backend
semantics).  Rows of the five tables become structures, the database becomes
a record of row lists together with the AUTOINCREMENT counters, and each data
layer function of the source becomes a Lean function on that record.  Store
constraints (UNIQUE, CHECK, foreign keys) are modelled by returning
`Except DBError`; a constraint violation commits nothing, matching the
source, where the exception escapes before `conn.commit()`.
Timestamps (`datetime.utcnow().isoformat()`) are passed in as an explicit
`now : String` argument.  The JSON round trip applied to the steps list
(`json.dumps` on write) is modelled as the list itself.
-/

namespace TestMgmt

/-- Row of the `users` table. -/
structure User where
  id : Nat
  name : String
  role : String
deriving DecidableEq

/-- Row of the `sessions` table. -/
structure Session where
  id : Nat
  name : String
  created_at : String
  closed : Bool
deriving DecidableEq

/-- Row of the `test_cases` table; `steps_json` keeps the decoded list. -/
structure TestCase where
  id : Nat
  external_id : Option String
  title : String
  steps_json : List String
  expected_result : String
  category : String
  author_id : Option Nat
deriving DecidableEq

/-- Row of the `test_runs` table. -/
structure TestRun where
  id : Nat
  test_case_id : Nat
  session_id : Nat
  runner_id : Option Nat
  url : String
  phase : String
  status : String
  comment : String
  created_at : String
deriving DecidableEq

/-- Row of the `failures` table. -/
structure Failure where
  id : Nat
  run_id : Nat
  severity : String
  noted_by : Option Nat
  noted_at : String
deriving DecidableEq

/-- The whole store: one list per table plus the AUTOINCREMENT counters. -/
structure DB where
  users : List User
  sessions : List Session
  test_cases : List TestCase
  test_runs : List TestRun
  failures : List Failure
  next_user_id : Nat
  next_session_id : Nat
  next_case_id : Nat
  next_run_id : Nat
  next_failure_id : Nat
deriving DecidableEq

/-- Errors raised by the store (sqlite3.IntegrityError on UNIQUE, CHECK or
foreign key violation). -/
inductive DBError where
  | integrityError
deriving DecidableEq

/-- CHECK(role IN ('tester','testlead')) on the `users` table. -/
def roleOk (role : String) : Bool :=
  role == "tester" || role == "testlead"

/-- CHECK(category IN ('integration','studio')) on `test_cases`. -/
def categoryOk (c : String) : Bool :=
  c == "integration" || c == "studio"

/-- CHECK(phase IN ('FT','SIT','UAT')) on `test_runs`. -/
def phaseOk (p : String) : Bool :=
  p == "FT" || p == "SIT" || p == "UAT"

/-- CHECK(status IN ('passed','failed')) on `test_runs`. -/
def statusOk (s : String) : Bool :=
  s == "passed" || s == "failed"

/-- CHECK(severity IN ('minor','major','critical')) on `failures`. -/
def severityOk (s : String) : Bool :=
  s == "minor" || s == "major" || s == "critical"

/-- A nullable foreign key into `users`: NULL or an existing user id. -/
def userRef (db : DB) : Option Nat → Bool
  | none => true
  | some uid => db.users.any (fun u => u.id == uid)

/-- ASCII lowercasing of one character, as SQLite LIKE applies to the
letters A-Z (LIKE is case-insensitive only for ASCII by default). -/
def asciiLower (c : Char) : Char :=
  if 'A' ≤ c ∧ c ≤ 'Z' then Char.ofNat (c.toNat + 32) else c

/-- SQL `LIKE 'TC-%'` on a text value: a three character prefix test,
case-insensitive on ASCII letters as SQLite LIKE is by default. -/
def likeTC (s : String) : Bool :=
  (s.data.take 3).map asciiLower == ['t', 'c', '-']

/-- SQL `SUBSTR(s, 4)`: the text from the fourth character on. -/
def substrFrom4 (s : String) : String :=
  List.asString (s.data.drop 3)

/-- Accumulating decimal read: consumes leading digit characters, stopping
at the first non-digit, exactly as SQLite CAST does after the sign. -/
def digitsVal : List Char → Nat → Nat
  | [], acc => acc
  | c :: cs, acc =>
    if c.isDigit then digitsVal cs (acc * 10 + (c.toNat - 48)) else acc

/-- SQLite `CAST(s AS INTEGER)`: skip leading spaces, optional sign, then
the longest run of digits; no digits yields 0. -/
def sqliteCastInt (s : String) : Int :=
  match s.data.dropWhile (fun c => c == ' ') with
  | [] => 0
  | c :: cs =>
    if c == '-' then -(digitsVal cs 0 : Int)
    else if c == '+' then (digitsVal cs 0 : Int)
    else (digitsVal (c :: cs) 0 : Int)

/-- The numbers CAST extracts from the rows selected by
`WHERE external_id LIKE 'TC-%'` in `get_next_external_id`. -/
def matchNums (db : DB) : List Int :=
  db.test_cases.filterMap (fun tc =>
    match tc.external_id with
    | some e => if likeTC e then some (sqliteCastInt (substrFrom4 e)) else none
    | none => none)

/-- SQL aggregate `MAX` over a column: NULL on the empty set. -/
def maxAgg : List Int → Option Int
  | [] => none
  | x :: xs => some (xs.foldl max x)

/-- Python `(row[0] or 0)`: None becomes 0; 0 stays 0, so this is just the
default. -/
def pyOrZero : Option Int → Int
  | none => 0
  | some v => v

/-- `get_next_external_id`: MAX of the cast suffixes of ids LIKE 'TC-%',
defaulted to 0, plus one, rendered as `TC-` plus the number. -/
def get_next_external_id (db : DB) : String :=
  "TC-" ++ toString (pyOrZero (maxAgg (matchNums db)) + 1)

/-- The characters Python str.isspace() accepts, and str.strip() removes:
ASCII whitespace including vertical tab and form feed, the separator
controls, and the Unicode space characters. -/
def pyIsSpace (c : Char) : Bool :=
  (9 ≤ c.toNat && c.toNat ≤ 13) || c.toNat == 32
    || (28 ≤ c.toNat && c.toNat ≤ 31) || c.toNat == 133 || c.toNat == 160
    || c.toNat == 5760 || (8192 ≤ c.toNat && c.toNat ≤ 8202)
    || c.toNat == 8232 || c.toNat == 8233 || c.toNat == 8239 || c.toNat == 8287
    || c.toNat == 12288

/-- Python str.strip(): remove leading and trailing whitespace (modelled
structurally so that it evaluates in the kernel). -/
def pyStrip (s : String) : String :=
  List.asString (((s.data.dropWhile pyIsSpace).reverse.dropWhile
    pyIsSpace).reverse)

/-- Equality of store operation results is decidable. -/
instance {e a : Type} [DecidableEq e] [DecidableEq a] : DecidableEq (Except e a)
  | Except.ok x, Except.ok y =>
    if h : x = y then isTrue (by rw [h]) else isFalse (by intro hc; cases hc; exact h rfl)
  | Except.ok _, Except.error _ => isFalse (by intro hc; cases hc)
  | Except.error _, Except.ok _ => isFalse (by intro hc; cases hc)
  | Except.error x, Except.error y =>
    if h : x = y then isTrue (by rw [h]) else isFalse (by intro hc; cases hc; exact h rfl)

/-- The row transformation of `UPDATE users SET role=? WHERE name=?`. -/
def roleUpd (nm role : String) (u : User) : User :=
  if u.name == nm then { u with role := role } else u

/-- `upsert_user` (sqlite path): INSERT OR IGNORE, then, when nothing was
inserted, UPDATE the role of the row with that (trimmed) name.  The ignored
insert also swallows a CHECK violation, but the UPDATE raises it when a row
matches. -/
def upsert_user (db : DB) (name role : String) : Except DBError DB :=
  let nm := pyStrip name
  if !(db.users.any (fun u => u.name == nm)) && roleOk role then
    Except.ok { db with
      users := db.users ++ [{ id := db.next_user_id, name := nm, role := role }]
      next_user_id := db.next_user_id + 1 }
  else if db.users.any (fun u => u.name == nm) && !(roleOk role) then
    Except.error DBError.integrityError
  else
    Except.ok { db with users := db.users.map (roleUpd nm role) }

/-- `create_session`: INSERT the trimmed name with the timestamp and
closed = 0; the UNIQUE constraint on the name raises on a duplicate. -/
def create_session (db : DB) (name now : String) : Except DBError DB :=
  if db.sessions.any (fun s => s.name == pyStrip name) then
    Except.error DBError.integrityError
  else
    Except.ok { db with
      sessions := db.sessions ++
        [{ id := db.next_session_id, name := pyStrip name, created_at := now, closed := false }]
      next_session_id := db.next_session_id + 1 }

/-- The NOT EXISTS subquery of `close_session`: the session has a run for
this case with status passed. -/
def hasPassedRun (db : DB) (sid : Nat) (tcid : Nat) : Bool :=
  db.test_runs.any (fun r =>
    r.test_case_id == tcid && r.session_id == sid && r.status == "passed")

/-- `close_session`: count the cases with no passed run in the session; on
a positive count return false and change nothing, otherwise set closed = 1
on the session row and return true. -/
def close_session (db : DB) (sid : Nat) : Bool × DB :=
  let missing_pass := (db.test_cases.filter (fun tc => !(hasPassedRun db sid tc.id))).length
  if missing_pass > 0 then
    (false, db)
  else
    (true, { db with
      sessions := db.sessions.map (fun s =>
        if s.id == sid then { s with closed := true } else s) })

/-- `add_test_case`: compute the next external id, then INSERT the row with
trimmed title and expected result.  The store enforces the category CHECK,
the author foreign key and the UNIQUE index on external ids; the function
itself validates nothing. -/
def add_test_case (db : DB) (title : String) (steps : List String)
    (expected category : String) (author_id : Option Nat) :
    Except DBError (String × DB) :=
  let external_id := get_next_external_id db
  if !(categoryOk category) || !(userRef db author_id)
      || db.test_cases.any (fun tc => tc.external_id == some external_id) then
    Except.error DBError.integrityError
  else
    Except.ok (external_id, { db with
      test_cases := db.test_cases ++
        [{ id := db.next_case_id, external_id := some external_id,
           title := pyStrip title, steps_json := steps,
           expected_result := pyStrip expected, category := category,
           author_id := author_id }]
      next_case_id := db.next_case_id + 1 })

/-- `record_test_run`: INSERT an immutable run row; the store enforces the
phase and status CHECKs and the foreign keys into cases, sessions and
users. -/
def record_test_run (db : DB) (test_case_id session_id : Nat)
    (runner_id : Option Nat) (url phase status comment now : String) :
    Except DBError DB :=
  if !(phaseOk phase) || !(statusOk status)
      || !(db.test_cases.any (fun tc => tc.id == test_case_id))
      || !(db.sessions.any (fun s => s.id == session_id))
      || !(userRef db runner_id) then
    Except.error DBError.integrityError
  else
    Except.ok { db with
      test_runs := db.test_runs ++
        [{ id := db.next_run_id, test_case_id := test_case_id,
           session_id := session_id, runner_id := runner_id,
           url := pyStrip url, phase := phase, status := status,
           comment := pyStrip comment, created_at := now }]
      next_run_id := db.next_run_id + 1 }

/-- `classify_failure` (sqlite path): INSERT OR REPLACE keyed by the UNIQUE
run id deletes a conflicting row and inserts a fresh one (with a fresh
surrogate id); severity CHECK and the run and user foreign keys are
enforced by the store. -/
def classify_failure (db : DB) (run_id : Nat) (severity : String)
    (user_id : Option Nat) (now : String) : Except DBError DB :=
  if !(severityOk severity) || !(db.test_runs.any (fun r => r.id == run_id))
      || !(userRef db user_id) then
    Except.error DBError.integrityError
  else
    Except.ok { db with
      failures := (db.failures.filter (fun f => !(f.run_id == run_id))) ++
        [{ id := db.next_failure_id, run_id := run_id, severity := severity,
           noted_by := user_id, noted_at := now }]
      next_failure_id := db.next_failure_id + 1 }

/-- Result record of `counts_for_session`. -/
structure Counts where
  total_runs : Nat
  failed_runs : Nat
  to_execute : Nat
  minor : Nat
  major : Nat
  critical : Nat
  needing_pass : List (Nat × Option String × String × String × String)
deriving DecidableEq

/-- COALESCE(u.name, placeholder) for an author join; the placeholder is
the em dash of the source. -/
def authorName (db : DB) (author_id : Option Nat) : String :=
  match author_id with
  | none => "—"
  | some uid =>
    match db.users.find? (fun u => u.id == uid) with
    | some u => u.name
    | none => "—"

/-- Insertion sort by internal case id, ORDER BY tc.id ASC. -/
def insertById (tc : TestCase) : List TestCase → List TestCase
  | [] => [tc]
  | x :: xs => if tc.id ≤ x.id then tc :: x :: xs else x :: insertById tc xs

/-- Sort cases by internal id ascending. -/
def sortById : List TestCase → List TestCase
  | [] => []
  | x :: xs => insertById x (sortById xs)

/-- `counts_for_session`: the four scalar queries and the needing-pass list.
The coverage subquery (NOT EXISTS a passed run of the case in the session)
appears here verbatim as in `close_session`. -/
def counts_for_session (db : DB) (sid : Nat) : Counts :=
  { total_runs := (db.test_runs.filter (fun r => r.session_id == sid)).length
    failed_runs := (db.test_runs.filter (fun r =>
      r.session_id == sid && r.status == "failed")).length
    to_execute := (db.test_cases.filter (fun tc =>
      !(db.test_runs.any (fun r =>
        r.test_case_id == tc.id && r.session_id == sid && r.status == "passed")))).length
    minor := (db.failures.filter (fun f => f.severity == "minor" &&
      db.test_runs.any (fun r => r.id == f.run_id && r.session_id == sid))).length
    major := (db.failures.filter (fun f => f.severity == "major" &&
      db.test_runs.any (fun r => r.id == f.run_id && r.session_id == sid))).length
    critical := (db.failures.filter (fun f => f.severity == "critical" &&
      db.test_runs.any (fun r => r.id == f.run_id && r.session_id == sid))).length
    needing_pass := (sortById (db.test_cases.filter (fun tc =>
      !(db.test_runs.any (fun r =>
        r.test_case_id == tc.id && r.session_id == sid && r.status == "passed"))))).map
      (fun tc => (tc.id, tc.external_id, tc.title, tc.category, authorName db tc.author_id)) }

/-- One core write operation, for statements that quantify over every
operation of the data layer. -/
inductive Op where
  | upsertUser (name role : String)
  | createSession (name now : String)
  | closeSession (sid : Nat)
  | addTestCase (title : String) (steps : List String) (expected category : String)
      (author : Option Nat)
  | recordRun (tc sid : Nat) (runner : Option Nat) (url phase status comment now : String)
  | classifyFailure (run : Nat) (sev : String) (uid : Option Nat) (now : String)
deriving DecidableEq

/-- Keep the previous state when the store rejected the write (the exception
escapes before commit, so nothing changes). -/
def orKeep (db : DB) : Except DBError DB → DB
  | Except.ok db' => db'
  | Except.error _ => db

/-- Apply one operation to the store. -/
def step (db : DB) : Op → DB
  | Op.upsertUser n r => orKeep db (upsert_user db n r)
  | Op.createSession n t => orKeep db (create_session db n t)
  | Op.closeSession sid => (close_session db sid).2
  | Op.addTestCase t s e c a =>
    match add_test_case db t s e c a with
    | Except.ok (_, db') => db'
    | Except.error _ => db
  | Op.recordRun tc sid runner url phase status comment now =>
    orKeep db (record_test_run db tc sid runner url phase status comment now)
  | Op.classifyFailure run sev uid now => orKeep db (classify_failure db run sev uid now)

/-- The empty store. -/
def dbEmpty : DB :=
  { users := [], sessions := [], test_cases := [], test_runs := [], failures := []
    next_user_id := 1, next_session_id := 1, next_case_id := 1, next_run_id := 1
    next_failure_id := 1 }

/-- A sample catalog case with id 1. -/
def tcSample : TestCase :=
  { id := 1
    external_id := some "TC-1"
    title := "a"
    steps_json := ["s1"]
    expected_result := "e"
    category := "integration"
    author_id := none }

/-- A sample passed run of case 1 in session 7. -/
def runSamplePassed : TestRun :=
  { id := 1
    test_case_id := 1
    session_id := 7
    runner_id := none
    url := "u"
    phase := "FT"
    status := "passed"
    comment := ""
    created_at := "t" }

/-- A small concrete store: one open session (id 7), one catalog case
(id 1) and one passed run of that case in that session. -/
def dbOneCasePassed : DB :=
  { dbEmpty with
    sessions := [{ id := 7, name := "s", created_at := "t", closed := false }]
    test_cases := [tcSample]
    test_runs := [runSamplePassed]
    next_session_id := 8
    next_case_id := 2
    next_run_id := 2 }

/-- Input of one catalog create call. -/
structure CaseInput where
  title : String
  steps : List String
  expected : String
  category : String
  author : Option Nat
deriving DecidableEq

/-- Run a list of create calls, collecting the external ids the successful
ones return. -/
def createMany (db : DB) : List CaseInput → List String × DB
  | [] => ([], db)
  | i :: is =>
    match add_test_case db i.title i.steps i.expected i.category i.author with
    | Except.ok (eid, db') =>
      let r := createMany db' is
      (eid :: r.1, r.2)
    | Except.error _ => createMany db is

/-- Reference decimal digit list of a natural number, most significant
digit first; used to reason about `Nat.repr`. -/
def decChars (n : Nat) : List Char :=
  if _h : n < 10 then [Nat.digitChar n]
  else decChars (n / 10) ++ [Nat.digitChar (n % 10)]
decreasing_by exact Nat.div_lt_self (by omega) (by omega)

theorem digitChar_isDigit : ∀ d < 10, (Nat.digitChar d).isDigit = true := by
  decide

theorem digitChar_val : ∀ d < 10, (Nat.digitChar d).toNat - 48 = d := by
  decide

theorem decChars_digits (n : Nat) : ∀ c ∈ decChars n, c.isDigit = true := by
  induction n using Nat.strong_induction_on with
  | _ n ih =>
    rw [decChars]
    split
    · rename_i h
      intro c hc
      simp only [List.mem_singleton] at hc
      subst hc
      exact digitChar_isDigit n h
    · rename_i h
      intro c hc
      rcases List.mem_append.mp hc with hm | hm
      · exact ih (n / 10) (Nat.div_lt_self (by omega) (by omega)) c hm
      · simp only [List.mem_singleton] at hm
        subst hm
        exact digitChar_isDigit (n % 10) (Nat.mod_lt _ (by omega))

theorem decChars_ne_nil (n : Nat) : decChars n ≠ [] := by
  rw [decChars]
  split
  · simp
  · simp

theorem digitsVal_append (xs ys : List Char) (acc : Nat)
    (h : ∀ c ∈ xs, c.isDigit = true) :
    digitsVal (xs ++ ys) acc = digitsVal ys (digitsVal xs acc) := by
  induction xs generalizing acc with
  | nil => simp [digitsVal]
  | cons c cs ih =>
    have hc : c.isDigit = true := h c (by simp)
    simp only [List.cons_append, digitsVal, hc, if_true]
    exact ih _ (fun d hd => h d (by simp [hd]))

theorem digitsVal_decChars (n : Nat) :
    ∀ acc, digitsVal (decChars n) acc = acc * 10 ^ (decChars n).length + n := by
  induction n using Nat.strong_induction_on with
  | _ n ih =>
    intro acc
    rw [decChars]
    split
    · rename_i h
      have hd := digitChar_isDigit n h
      have hv := digitChar_val n h
      simp [digitsVal, hd, hv]
    · rename_i h
      have hlt : n / 10 < n := Nat.div_lt_self (by omega) (by omega)
      have hd := digitChar_isDigit (n % 10) (Nat.mod_lt _ (by omega))
      have hv := digitChar_val (n % 10) (Nat.mod_lt _ (by omega))
      rw [digitsVal_append _ _ _ (decChars_digits (n / 10))]
      rw [ih (n / 10) hlt acc]
      simp only [digitsVal, hd, if_true, hv, List.length_append, List.length_singleton]
      have hmod : n % 10 + 10 * (n / 10) = n := Nat.mod_add_div n 10
      have hpow : 10 ^ ((decChars (n / 10)).length + 1)
          = 10 ^ (decChars (n / 10)).length * 10 := by
        rw [pow_succ]
      rw [hpow]
      ring_nf
      omega

theorem toDigitsCore_eq_decChars (f : Nat) :
    ∀ (n : Nat) (acc : List Char), n < f →
      Nat.toDigitsCore 10 f n acc = decChars n ++ acc := by
  induction f with
  | zero => intro n acc h; omega
  | succ f ih =>
    intro n acc h
    rw [Nat.toDigitsCore]
    by_cases h0 : n / 10 = 0
    · have h10 : n < 10 := by omega
      simp only [h0, if_true]
      rw [decChars]
      simp [h10, Nat.mod_eq_of_lt h10]
    · have h10 : ¬ n < 10 := by
        intro hlt
        exact h0 (Nat.div_eq_of_lt hlt)
      simp only [h0, if_false]
      rw [ih (n / 10) _ (by omega)]
      conv_rhs => rw [decChars]
      simp [h10]

theorem repr_data_eq_decChars (m : Nat) : (Nat.repr m).data = decChars m := by
  show (Nat.toDigits 10 m).asString.data = decChars m
  rw [Nat.toDigits, toDigitsCore_eq_decChars (m + 1) m [] (by omega)]
  simp [List.asString]

theorem digit_not_space {c : Char} (h : c.isDigit = true) : (c == ' ') = false := by
  by_contra hcon
  have : (c == ' ') = true := by
    cases hb : (c == ' ') with
    | true => rfl
    | false => exact absurd hb hcon
  have hc : c = ' ' := by
    exact beq_iff_eq.mp this
  subst hc
  exact absurd h (by decide)

theorem digit_not_minus {c : Char} (h : c.isDigit = true) : c ≠ '-' := by
  intro hc; subst hc; exact absurd h (by decide)

theorem digit_not_plus {c : Char} (h : c.isDigit = true) : c ≠ '+' := by
  intro hc; subst hc; exact absurd h (by decide)

theorem castInt_of_digits (cs : List Char) (h : ∀ c ∈ cs, c.isDigit = true) :
    sqliteCastInt (List.asString cs) = (digitsVal cs 0 : Int) := by
  rw [sqliteCastInt]
  cases cs with
  | nil => simp [List.asString, digitsVal]
  | cons c cs' =>
    have hc : c.isDigit = true := h c (by simp)
    have hdrop : (List.asString (c :: cs')).data.dropWhile (fun c => c == ' ')
        = c :: cs' := by
      simp only [List.asString]
      rw [List.dropWhile_cons]
      simp [digit_not_space hc]
    simp only [hdrop]
    have hm : (c == '-') = false := by
      simp [digit_not_minus hc]
    have hp : (c == '+') = false := by
      simp [digit_not_plus hc]
    simp [hm, hp]

theorem castInt_nat_repr (m : Nat) : sqliteCastInt (Nat.repr m) = (m : Int) := by
  have hdata : Nat.repr m = List.asString (decChars m) := by
    rw [List.asString, ← repr_data_eq_decChars m]
  rw [hdata, castInt_of_digits _ (decChars_digits m), digitsVal_decChars m 0]
  simp

theorem castInt_int_repr (z : Int) : sqliteCastInt (toString z) = z := by
  cases z with
  | ofNat m =>
    show sqliteCastInt (Nat.repr m) = Int.ofNat m
    rw [castInt_nat_repr]
    rfl
  | negSucc m =>
    show sqliteCastInt ("-" ++ Nat.repr (m + 1)) = Int.negSucc m
    rw [sqliteCastInt]
    have hdata : ("-" ++ Nat.repr (m + 1)).data = '-' :: decChars (m + 1) := by
      rw [String.data_append, repr_data_eq_decChars]
      rfl
    simp only [hdata]
    have hdrop : ('-' :: decChars (m + 1)).dropWhile (fun c => c == ' ')
        = '-' :: decChars (m + 1) := by
      rw [List.dropWhile_cons]
      simp
    simp only [hdrop]
    have := digitsVal_decChars (m + 1) 0
    simp only [Nat.zero_mul, Nat.zero_add] at this
    simp [this, Int.negSucc_eq]

theorem substrFrom4_TC (s : String) : substrFrom4 ("TC-" ++ s) = s := by
  rw [substrFrom4, String.data_append]
  show List.asString s.data = s
  rw [List.asString]

theorem likeTC_TC (s : String) : likeTC ("TC-" ++ s) = true := by
  rw [likeTC, String.data_append]
  show ((['T', 'C', '-'].map asciiLower) == ['t', 'c', '-']) = true
  decide

theorem le_foldl_max (l : List Int) : ∀ x v : Int, v ≤ x → v ≤ l.foldl max x := by
  induction l with
  | nil => intro x v h; simpa using h
  | cons y ys ih =>
    intro x v h
    simp only [List.foldl_cons]
    exact ih (max x y) v (le_trans h (le_max_left x y))

theorem mem_le_foldl_max (l : List Int) : ∀ x v : Int, v ∈ l → v ≤ l.foldl max x := by
  induction l with
  | nil => intro x v h; simp at h
  | cons y ys ih =>
    intro x v h
    simp only [List.foldl_cons]
    rcases List.mem_cons.mp h with h' | h'
    · exact le_foldl_max ys (max x y) v (h' ▸ le_max_right x y)
    · exact ih (max x y) v h'

theorem mem_le_maxAgg (l : List Int) (v : Int) (hv : v ∈ l) :
    ∃ m, maxAgg l = some m ∧ v ≤ m := by
  cases l with
  | nil => simp at hv
  | cons x xs =>
    refine ⟨xs.foldl max x, rfl, ?_⟩
    rcases List.mem_cons.mp hv with h | h
    · exact le_foldl_max xs x v (le_of_eq h)
    · exact mem_le_foldl_max xs x v h

theorem maxAgg_mem_lt_next (db : DB) (v : Int) (hv : v ∈ matchNums db) :
    v < pyOrZero (maxAgg (matchNums db)) + 1 := by
  obtain ⟨m, hm, hle⟩ := mem_le_maxAgg _ v hv
  rw [hm]
  simp only [pyOrZero]
  omega

theorem castInt_next (db : DB) :
    sqliteCastInt (substrFrom4 (get_next_external_id db))
      = pyOrZero (maxAgg (matchNums db)) + 1 := by
  rw [get_next_external_id, substrFrom4_TC, castInt_int_repr]

theorem next_id_absent (db : DB) :
    db.test_cases.any (fun tc => tc.external_id == some (get_next_external_id db))
      = false := by
  by_contra hcon
  have hany : db.test_cases.any
      (fun tc => tc.external_id == some (get_next_external_id db)) = true := by
    cases hb : db.test_cases.any
        (fun tc => tc.external_id == some (get_next_external_id db)) with
    | true => rfl
    | false => exact absurd hb hcon
  obtain ⟨tc, htc, heq⟩ := List.any_eq_true.mp hany
  have hid : tc.external_id = some (get_next_external_id db) := beq_iff_eq.mp heq
  have hmem : sqliteCastInt (substrFrom4 (get_next_external_id db)) ∈ matchNums db := by
    rw [matchNums]
    apply List.mem_filterMap.mpr
    refine ⟨tc, htc, ?_⟩
    rw [hid]
    simp only [get_next_external_id, likeTC_TC]
    rfl
  have hlt := maxAgg_mem_lt_next db _ hmem
  rw [castInt_next] at hlt
  omega

theorem add_test_case_ok (db : DB) (title : String) (steps : List String)
    (expected category : String) (author_id : Option Nat)
    (hc : categoryOk category = true) (hu : userRef db author_id = true) :
    add_test_case db title steps expected category author_id =
      Except.ok (get_next_external_id db, { db with
        test_cases := db.test_cases ++
          [{ id := db.next_case_id, external_id := some (get_next_external_id db),
             title := pyStrip title, steps_json := steps,
             expected_result := pyStrip expected, category := category,
             author_id := author_id }]
        next_case_id := db.next_case_id + 1 }) := by
  rw [add_test_case]
  simp [hc, hu, next_id_absent db]

theorem maxAgg_append_single (xs : List Int) (v : Int) :
    maxAgg (xs ++ [v]) = some (match maxAgg xs with
      | none => v
      | some m => max m v) := by
  cases xs with
  | nil => rfl
  | cons x xs' =>
    show maxAgg (x :: (xs' ++ [v])) = some (max (xs'.foldl max x) v)
    rw [maxAgg]
    rw [List.foldl_append]
    rfl

theorem seq_maxAgg (k : Nat) :
    maxAgg ((List.range k).map (fun j => ((j + 1 : Nat) : Int)))
      = if k = 0 then none else some (k : Int) := by
  induction k with
  | zero => rfl
  | succ k ih =>
    rw [List.range_succ, List.map_append, List.map_singleton, maxAgg_append_single, ih]
    cases k with
    | zero => rfl
    | succ k' =>
      rw [if_neg (Nat.succ_ne_zero k'), if_neg (Nat.succ_ne_zero (k' + 1))]
      show some (max ((k' + 1 : Nat) : Int) ((k' + 1 + 1 : Nat) : Int))
        = some ((k' + 1 + 1 : Nat) : Int)
      have hmax : max ((k' + 1 : Nat) : Int) ((k' + 1 + 1 : Nat) : Int)
          = ((k' + 1 + 1 : Nat) : Int) := by
        apply max_eq_right
        push_cast
        omega
      rw [hmax]

theorem seq_next (k : Nat) :
    pyOrZero (maxAgg ((List.range k).map (fun j => ((j + 1 : Nat) : Int)))) + 1
      = ((k + 1 : Nat) : Int) := by
  rw [seq_maxAgg]
  cases k with
  | zero => rfl
  | succ k' =>
    rw [if_neg (Nat.succ_ne_zero k')]
    show ((k' + 1 : Nat) : Int) + 1 = ((k' + 1 + 1 : Nat) : Int)
    push_cast
    omega

theorem toString_int_natCast (m : Nat) : toString ((m : Nat) : Int) = toString m := by
  rfl

theorem matchNums_append_case (db : DB) (tc : TestCase) (e : String)
    (hext : tc.external_id = some e) (hlike : likeTC e = true) :
    matchNums { db with test_cases := db.test_cases ++ [tc], next_case_id := db.next_case_id + 1 }
      = matchNums db ++ [sqliteCastInt (substrFrom4 e)] := by
  rw [matchNums, matchNums]
  show List.filterMap _ (db.test_cases ++ [tc]) = _
  rw [List.filterMap_append]
  congr 1
  simp [List.filterMap_cons, hext, hlike]

theorem userRef_only_users (db db' : DB) (a : Option Nat) (h : db'.users = db.users) :
    userRef db' a = userRef db a := by
  cases a with
  | none => rfl
  | some uid => simp [userRef, h]

theorem createMany_from (inputs : List CaseInput) :
    ∀ (db : DB) (k : Nat),
      matchNums db = (List.range k).map (fun j => ((j + 1 : Nat) : Int)) →
      (∀ i ∈ inputs, categoryOk i.category = true ∧ userRef db i.author = true) →
      (createMany db inputs).1
        = (List.range inputs.length).map (fun j => "TC-" ++ toString (k + j + 1)) := by
  induction inputs with
  | nil => intro db k hmatch hvalid; rfl
  | cons i is ih =>
    intro db k hmatch hvalid
    obtain ⟨hc, hu⟩ := hvalid i (by simp)
    have hok := add_test_case_ok db i.title i.steps i.expected i.category i.author hc hu
    have hnext : get_next_external_id db = "TC-" ++ toString (k + 1) := by
      rw [get_next_external_id, hmatch, seq_next, toString_int_natCast]
    set db' : DB := { db with
      test_cases := db.test_cases ++
        [{ id := db.next_case_id, external_id := some (get_next_external_id db),
           title := pyStrip i.title, steps_json := i.steps,
           expected_result := pyStrip i.expected, category := i.category,
           author_id := i.author }]
      next_case_id := db.next_case_id + 1 } with hdb'
    have husers : db'.users = db.users := rfl
    have hlike : likeTC (get_next_external_id db) = true := by
      rw [get_next_external_id]
      exact likeTC_TC _
    have hmatch' : matchNums db'
        = (List.range (k + 1)).map (fun j => ((j + 1 : Nat) : Int)) := by
      rw [hdb']
      rw [matchNums_append_case db _ (get_next_external_id db) rfl hlike]
      rw [castInt_next db, hmatch, seq_next]
      rw [List.range_succ, List.map_append, List.map_singleton]
    have hvalid' : ∀ j ∈ is, categoryOk j.category = true ∧ userRef db' j.author = true := by
      intro j hj
      obtain ⟨h1, h2⟩ := hvalid j (by simp [hj])
      exact ⟨h1, by rw [userRef_only_users db db' j.author husers]; exact h2⟩
    have hrec := ih db' (k + 1) hmatch' hvalid'
    rw [createMany, hok]
    show get_next_external_id db :: (createMany db' is).1
      = (List.range (is.length + 1)).map (fun j => "TC-" ++ toString (k + j + 1))
    rw [hrec, List.range_succ_eq_map, List.map_cons, List.map_map, hnext]
    have htail : List.map (fun j => "TC-" ++ toString (k + 1 + j + 1)) (List.range is.length)
        = List.map ((fun j => "TC-" ++ toString (k + j + 1)) ∘ Nat.succ) (List.range is.length) := by
      apply List.map_congr_left
      intro j hj
      show "TC-" ++ toString (k + 1 + j + 1) = "TC-" ++ toString (k + (j + 1) + 1)
      have h2 : k + 1 + j + 1 = k + (j + 1) + 1 := by omega
      rw [h2]
    rw [htail]

theorem hasPassedRun_iff (db : DB) (sid tcid : Nat) :
    hasPassedRun db sid tcid = true ↔
      ∃ r ∈ db.test_runs, r.test_case_id = tcid ∧ r.session_id = sid ∧ r.status = "passed" := by
  rw [hasPassedRun, List.any_eq_true]
  constructor
  · rintro ⟨r, hr, hp⟩
    simp only [Bool.and_eq_true, beq_iff_eq] at hp
    exact ⟨r, hr, hp.1.1, hp.1.2, hp.2⟩
  · rintro ⟨r, hr, h1, h2, h3⟩
    refine ⟨r, hr, ?_⟩
    simp [h1, h2, h3]

theorem close_fst_iff (db : DB) (sid : Nat) :
    (close_session db sid).1 = true ↔
      ∀ tc ∈ db.test_cases, hasPassedRun db sid tc.id = true := by
  simp only [close_session]
  by_cases hc : (db.test_cases.filter (fun tc => !(hasPassedRun db sid tc.id))).length > 0
  · rw [if_pos hc]
    constructor
    · intro hf
      simp at hf
    · intro hall
      exfalso
      have hnil : db.test_cases.filter (fun tc => !(hasPassedRun db sid tc.id)) = [] := by
        rw [List.filter_eq_nil_iff]
        intro tc htc
        simp [hall tc htc]
      rw [hnil] at hc
      simp at hc
  · rw [if_neg hc]
    constructor
    · intro _ tc htc
      have hnil : db.test_cases.filter (fun tc => !(hasPassedRun db sid tc.id)) = [] := by
        rw [← List.length_eq_zero]
        omega
      have := List.filter_eq_nil_iff.mp hnil tc htc
      cases hb : hasPassedRun db sid tc.id with
      | true => rfl
      | false => exact absurd (by simp [hb]) this
    · intro _
      rfl

theorem close_snd_of_false (db : DB) (sid : Nat)
    (h : (close_session db sid).1 = false) : (close_session db sid).2 = db := by
  simp only [close_session] at h ⊢
  by_cases hc : (db.test_cases.filter (fun tc => !(hasPassedRun db sid tc.id))).length > 0
  · rw [if_pos hc]
  · rw [if_neg hc] at h
    simp at h

theorem close_snd_closed (db : DB) (sid : Nat)
    (h : (close_session db sid).1 = true) :
    ∀ s ∈ (close_session db sid).2.sessions, s.id = sid → s.closed = true := by
  simp only [close_session] at h ⊢
  by_cases hc : (db.test_cases.filter (fun tc => !(hasPassedRun db sid tc.id))).length > 0
  · rw [if_pos hc] at h
    simp at h
  · rw [if_neg hc]
    intro s hs hid
    simp only [List.mem_map] at hs
    obtain ⟨s₀, hs₀, hmap⟩ := hs
    by_cases hcond : (s₀.id == sid) = true
    · rw [if_pos hcond] at hmap
      rw [← hmap]
    · rw [if_neg hcond] at hmap
      subst hmap
      exact absurd (beq_iff_eq.mpr hid) hcond

theorem close_fst_eq_of_same_predicate (db₁ db₂ : DB) (sid : Nat)
    (hcases : db₁.test_cases = db₂.test_cases)
    (hpass : ∀ tcid, hasPassedRun db₁ sid tcid = hasPassedRun db₂ sid tcid) :
    (close_session db₁ sid).1 = (close_session db₂ sid).1 := by
  rw [Bool.eq_iff_iff, close_fst_iff, close_fst_iff, hcases]
  constructor
  · intro h tc htc
    rw [← hpass tc.id]
    exact h tc htc
  · intro h tc htc
    rw [hpass tc.id]
    exact h tc htc

/-- C1: close_session succeeds, returning true and setting the closed flag
of the session row, exactly when every test case of the catalog has at
least one run in this session with status passed; otherwise it returns
false and leaves the store untouched (a normal return value, not an
exception: the function is total into Bool paired with the store). -/
theorem claim1_close_gate (db : DB) (sid : Nat) :
    ((close_session db sid).1 = true ↔
      ∀ tc ∈ db.test_cases, ∃ r ∈ db.test_runs,
        r.test_case_id = tc.id ∧ r.session_id = sid ∧ r.status = "passed")
    ∧ ((close_session db sid).1 = true →
        ∀ s ∈ (close_session db sid).2.sessions, s.id = sid → s.closed = true)
    ∧ ((close_session db sid).1 = false → (close_session db sid).2 = db) := by
  refine ⟨?_, close_snd_closed db sid, close_snd_of_false db sid⟩
  rw [close_fst_iff]
  constructor
  · intro h tc htc
    exact (hasPassedRun_iff db sid tc.id).mp (h tc htc)
  · intro h tc htc
    exact (hasPassedRun_iff db sid tc.id).mpr (h tc htc)

/-- Witness for C1 at a concrete store: one case, one passed run in
session 7. -/
theorem claim1_close_gate_witness :
    (close_session dbOneCasePassed 7).1 = true :=
  (claim1_close_gate dbOneCasePassed 7).1.mpr (by decide)

theorem to_execute_zero_iff (db : DB) (sid : Nat) :
    (counts_for_session db sid).to_execute = 0 ↔ (close_session db sid).1 = true := by
  show (db.test_cases.filter (fun tc =>
      !(db.test_runs.any (fun r =>
        r.test_case_id == tc.id && r.session_id == sid && r.status == "passed")))).length = 0
    ↔ (close_session db sid).1 = true
  rw [close_fst_iff, List.length_eq_zero, List.filter_eq_nil_iff]
  constructor
  · intro h tc htc
    have := h tc htc
    cases hb : hasPassedRun db sid tc.id with
    | true => rfl
    | false =>
      rw [hasPassedRun] at hb
      exact absurd (by simp [hb]) this
  · intro h tc htc
    have := h tc htc
    rw [hasPassedRun] at this
    simp [this]

/-- C2: the to_execute count of the aggregator is zero exactly when
close_session would succeed; both evaluate the same coverage predicate. -/
theorem claim2_counts_close_consistent (db : DB) (sid : Nat) :
    (counts_for_session db sid).to_execute = 0 ↔ (close_session db sid).1 = true :=
  to_execute_zero_iff db sid

/-- Witness for C2 at the empty store. -/
theorem claim2_counts_close_consistent_witness :
    (close_session dbEmpty 3).1 = true :=
  (claim2_counts_close_consistent dbEmpty 3).mp (by decide)

/-- C7: recording one more run with status failed never changes the truth
value of the closing gate, for any session. -/
theorem claim7_failed_run_gate_stable (db : DB) (tcid sid : Nat)
    (runner : Option Nat) (url phase comment now : String) (sid' : Nat) :
    (close_session (orKeep db (record_test_run db tcid sid runner url phase "failed" comment now)) sid').1
      = (close_session db sid').1 := by
  rw [record_test_run]
  split
  · rfl
  · rename_i h
    apply close_fst_eq_of_same_predicate
    · rfl
    · intro t
      rw [hasPassedRun, hasPassedRun]
      show (db.test_runs ++ [_]).any _ = db.test_runs.any _
      rw [List.any_append]
      simp

/-- Witness for C7: a failing run in a satisfied session leaves the gate
true. -/
theorem claim7_failed_run_gate_stable_witness :
    (close_session (orKeep dbOneCasePassed
        (record_test_run dbOneCasePassed 1 7 none "u" "FT" "failed" "c" "t2")) 7).1
      = (close_session dbOneCasePassed 7).1 :=
  claim7_failed_run_gate_stable dbOneCasePassed 1 7 none "u" "FT" "c" "t2" 7

/-- C10: with an empty catalog the gate is vacuously satisfied: close
succeeds for any session id and the aggregator reports nothing left to
execute, whatever runs exist. -/
theorem claim10_empty_catalog (db : DB) (sid : Nat) (h : db.test_cases = []) :
    (close_session db sid).1 = true
    ∧ (counts_for_session db sid).to_execute = 0
    ∧ ∀ s ∈ (close_session db sid).2.sessions, s.id = sid → s.closed = true := by
  have h1 : (close_session db sid).1 = true := by
    rw [close_fst_iff]
    intro tc htc
    rw [h] at htc
    simp at htc
  exact ⟨h1, (to_execute_zero_iff db sid).mpr h1, close_snd_closed db sid h1⟩

/-- Witness for C10: a store with a session and a run but an empty
catalog closes successfully. -/
theorem claim10_empty_catalog_witness :
    (close_session { dbEmpty with
      sessions := [{ id := 7, name := "s", created_at := "t", closed := false }]
      test_runs := [runSamplePassed] } 7).1 = true :=
  (claim10_empty_catalog _ 7 rfl).1

/-- C3: starting from a catalog with no external id matching the TC
pattern, N successful creates assign exactly TC-1 through TC-N in call
order; and in general a create (with a valid category and author, which is
all the store checks) succeeds and assigns TC followed by one plus the
maximum existing suffix number among matching cases, zero when none
match. -/
theorem claim3_external_id_sequence :
    (∀ (db : DB) (inputs : List CaseInput),
      (∀ tc ∈ db.test_cases, ∀ e, tc.external_id = some e → likeTC e = false) →
      (∀ i ∈ inputs, categoryOk i.category = true ∧ userRef db i.author = true) →
      (createMany db inputs).1
        = (List.range inputs.length).map (fun j => "TC-" ++ toString (j + 1)))
    ∧ (∀ (db : DB) (title : String) (steps : List String) (expected category : String)
        (author : Option Nat),
      categoryOk category = true → userRef db author = true →
      ∃ db₂, add_test_case db title steps expected category author
        = Except.ok ("TC-" ++ toString (pyOrZero (maxAgg (matchNums db)) + 1), db₂)) := by
  constructor
  · intro db inputs hclean hvalid
    have hmatch : matchNums db = (List.range 0).map (fun j => ((j + 1 : Nat) : Int)) := by
      show matchNums db = []
      rw [matchNums, List.filterMap_eq_nil_iff]
      intro tc htc
      cases hext : tc.external_id with
      | none => rfl
      | some e =>
        have := hclean tc htc e hext
        simp [this]
    have h := createMany_from inputs db 0 hmatch hvalid
    rw [h]
    apply List.map_congr_left
    intro j hj
    show "TC-" ++ toString (0 + j + 1) = "TC-" ++ toString (j + 1)
    have hz : 0 + j + 1 = j + 1 := by omega
    rw [hz]
  · intro db title steps expected category author hc hu
    exact ⟨_, add_test_case_ok db title steps expected category author hc hu⟩

/-- Witness for C3: two creates on the empty store yield TC-1 then
TC-2. -/
theorem claim3_external_id_sequence_witness :
    (createMany dbEmpty
      [{ title := "Login", steps := ["s"], expected := "ok", category := "integration",
         author := none },
       { title := "Logout", steps := ["s"], expected := "ok", category := "studio",
         author := none }]).1 = ["TC-1", "TC-2"] := by
  have h := claim3_external_id_sequence.1 dbEmpty
    [{ title := "Login", steps := ["s"], expected := "ok", category := "integration",
       author := none },
     { title := "Logout", steps := ["s"], expected := "ok", category := "studio",
       author := none }] (by decide) (by decide)
  rw [h]
  decide

/-- The row `add_test_case` inserts for entirely blank inputs. -/
def tcBlankRow : TestCase :=
  { id := 1
    external_id := some "TC-1"
    title := ""
    steps_json := []
    expected_result := ""
    category := "integration"
    author_id := none }

/-- Counterexample to C4 as stated: a create call whose title, steps and
expected result are all empty is accepted by `add_test_case`, which inserts
the row and returns TC-1 instead of failing. -/
theorem claim4_counterexample :
    pyStrip "" = ""
    ∧ add_test_case dbEmpty "" [] "" "integration" none
      = Except.ok ("TC-1",
        { dbEmpty with test_cases := [tcBlankRow], next_case_id := 2 }) := by
  constructor
  · rfl
  · decide

/-- C4 amended: `add_test_case` itself validates nothing.  With a category
accepted by the store CHECK and a valid author reference it always succeeds
and inserts the row with trimmed title and expected result, however blank
the title, expected result or steps are and whatever the number of steps;
it fails (with a store constraint error, inserting nothing) when the
category is outside integration and studio. -/
theorem claim4_amended_no_validation (db : DB) (title : String)
    (steps : List String) (expected category : String) (author : Option Nat) :
    (categoryOk category = false →
      add_test_case db title steps expected category author
        = Except.error DBError.integrityError)
    ∧ (categoryOk category = true → userRef db author = true →
      add_test_case db title steps expected category author
        = Except.ok (get_next_external_id db, { db with
            test_cases := db.test_cases ++
              [{ id := db.next_case_id, external_id := some (get_next_external_id db),
                 title := pyStrip title, steps_json := steps,
                 expected_result := pyStrip expected, category := category,
                 author_id := author }]
            next_case_id := db.next_case_id + 1 })) := by
  constructor
  · intro hbad
    rw [add_test_case]
    simp [hbad]
  · intro hc hu
    exact add_test_case_ok db title steps expected category author hc hu

/-- Witness for the amended C4: an empty-titled, zero-step create succeeds
on the empty store and a bad category is rejected there. -/
theorem claim4_amended_no_validation_witness :
    add_test_case dbEmpty "" [] "" "integration" none
      = Except.ok ("TC-1",
        { dbEmpty with test_cases := [tcBlankRow], next_case_id := 2 })
    ∧ add_test_case dbEmpty "t" ["s"] "e" "regression" none
      = Except.error DBError.integrityError := by
  constructor
  · rw [(claim4_amended_no_validation dbEmpty "" [] "" "integration" none).2
      (by decide) (by decide)]
    decide
  · exact (claim4_amended_no_validation dbEmpty "t" ["s"] "e" "regression" none).1
      (by decide)

/-- Counterexample to C9 as stated: creating a session whose name is blank
succeeds and inserts a session with the empty name instead of failing with
a validation error. -/
theorem claim9_counterexample :
    pyStrip " " = ""
    ∧ create_session dbEmpty " " "t0"
      = Except.ok { dbEmpty with
          sessions := [{ id := 1, name := "", created_at := "t0", closed := false }]
          next_session_id := 2 } := by
  constructor
  · decide
  · decide

/-- C9 amended: `create_session` inserts an open session with the trimmed
name and the supplied timestamp; it fails with a store constraint error,
inserting nothing, exactly when a session with that trimmed name already
exists.  An empty or blank name is accepted and inserted. -/
theorem claim9_amended_create_session (db : DB) (name now : String) :
    ((∃ s ∈ db.sessions, s.name = pyStrip name) →
      create_session db name now = Except.error DBError.integrityError)
    ∧ ((∀ s ∈ db.sessions, s.name ≠ pyStrip name) →
      create_session db name now = Except.ok { db with
        sessions := db.sessions ++
          [{ id := db.next_session_id, name := pyStrip name, created_at := now,
             closed := false }]
        next_session_id := db.next_session_id + 1 }) := by
  constructor
  · rintro ⟨s, hs, hname⟩
    rw [create_session, if_pos]
    rw [List.any_eq_true]
    exact ⟨s, hs, beq_iff_eq.mpr hname⟩
  · intro hnone
    rw [create_session, if_neg]
    intro hany
    obtain ⟨s, hs, hname⟩ := List.any_eq_true.mp hany
    exact hnone s hs (beq_iff_eq.mp hname)

/-- Witness for the amended C9: inserting a fresh name succeeds and
repeating it is rejected. -/
theorem claim9_amended_create_session_witness :
    create_session { dbEmpty with
        sessions := [{ id := 1, name := "Cycle1", created_at := "t0", closed := false }]
        next_session_id := 2 } "Cycle1" "t1" = Except.error DBError.integrityError :=
  (claim9_amended_create_session { dbEmpty with
    sessions := [{ id := 1, name := "Cycle1", created_at := "t0", closed := false }]
    next_session_id := 2 } "Cycle1" "t1").1 (by decide)

theorem map_fix {α : Type} (l : List α) (f : α → α) (h : ∀ x ∈ l, f x = x) :
    l.map f = l := by
  induction l with
  | nil => rfl
  | cons x xs ih =>
    rw [List.map_cons, h x (by simp), ih (fun y hy => h y (by simp [hy]))]

theorem any_congr {α : Type} (l : List α) (p q : α → Bool)
    (h : ∀ a ∈ l, p a = q a) : l.any p = l.any q := by
  induction l with
  | nil => rfl
  | cons x xs ih =>
    simp only [List.any_cons, h x (by simp), ih (fun a ha => h a (by simp [ha]))]

theorem roleUpd_name (nm r : String) (u : User) : (roleUpd nm r u).name = u.name := by
  by_cases h : (u.name == nm) = true
  · simp [roleUpd, h]
  · simp [roleUpd, h]

theorem roleUpd_of_name {nm r : String} {u : User} (h : (u.name == nm) = true) :
    roleUpd nm r u = { u with role := r } := by
  simp [roleUpd, h]

theorem roleUpd_of_other {nm r : String} {u : User} (h : (u.name == nm) = false) :
    roleUpd nm r u = u := by
  simp [roleUpd, h]

theorem roleUpd_idem (nm r : String) (u : User) :
    roleUpd nm r (roleUpd nm r u) = roleUpd nm r u := by
  cases hb : (u.name == nm) with
  | true =>
    have hb2 : (({ u with role := r } : User).name == nm) = true := hb
    rw [roleUpd_of_name hb, roleUpd_of_name hb2]
  | false =>
    rw [roleUpd_of_other hb, roleUpd_of_other hb]

theorem users_map_any_name (l : List User) (nm r : String) :
    (l.map (roleUpd nm r)).any (fun u => u.name == nm)
      = l.any (fun u => u.name == nm) := by
  rw [List.any_map]
  apply any_congr
  intro u hu
  show ((roleUpd nm r u).name == nm) = (u.name == nm)
  rw [roleUpd_name]

theorem users_map_filter_name (l : List User) (nm r : String) :
    (l.map (roleUpd nm r)).filter (fun u => u.name == nm)
      = (l.filter (fun u => u.name == nm)).map (roleUpd nm r) := by
  rw [List.filter_map]
  congr 1
  apply List.filter_congr
  intro u hu
  show ((roleUpd nm r u).name == nm) = (u.name == nm)
  rw [roleUpd_name]

theorem ne_true_of_eq_false {b : Bool} (h : b = false) : ¬(b = true) := by
  rw [h]
  exact Bool.false_ne_true

theorem upsert_one_name_filter (db : DB) (name role : String)
    (hrole : roleOk role = true)
    (hlen : (db.users.filter (fun u => u.name == pyStrip name)).length ≤ 1) :
    ∃ db', upsert_user db name role = Except.ok db'
      ∧ (db'.users.filter (fun u => u.name == pyStrip name)).map (fun u => u.role)
          = [role]
      ∧ (db'.users.filter (fun u => u.name == pyStrip name)).length ≤ 1 := by
  cases ha : db.users.any (fun u => u.name == pyStrip name) with
  | true =>
    have heq : upsert_user db name role
        = Except.ok { db with users := db.users.map (roleUpd (pyStrip name) role) } := by
      simp [upsert_user, ha, hrole]
    refine ⟨_, heq, ?_, ?_⟩
    · show ((db.users.map (roleUpd (pyStrip name) role)).filter
          (fun u => u.name == pyStrip name)).map (fun u => u.role) = [role]
      rw [users_map_filter_name]
      have hge : 1 ≤ (db.users.filter (fun u => u.name == pyStrip name)).length := by
        obtain ⟨u, hu, hp⟩ := List.any_eq_true.mp ha
        have hmem : u ∈ db.users.filter (fun u => u.name == pyStrip name) :=
          List.mem_filter.mpr ⟨hu, hp⟩
        exact List.length_pos.mpr (fun hnil => by rw [hnil] at hmem; cases hmem)
      obtain ⟨u, hu⟩ := List.length_eq_one.mp (le_antisymm hlen hge)
      rw [hu]
      have hmem2 : u ∈ db.users.filter (fun u => u.name == pyStrip name) := by
        rw [hu]
        exact List.mem_singleton_self u
      have hname : (u.name == pyStrip name) = true := (List.mem_filter.mp hmem2).2
      rw [List.map_singleton, roleUpd_of_name hname, List.map_singleton]
    · show ((db.users.map (roleUpd (pyStrip name) role)).filter
          (fun u => u.name == pyStrip name)).length ≤ 1
      rw [users_map_filter_name, List.length_map]
      exact hlen
  | false =>
    have heq : upsert_user db name role = Except.ok { db with
        users := db.users ++
          [{ id := db.next_user_id, name := pyStrip name, role := role }]
        next_user_id := db.next_user_id + 1 } := by
      simp [upsert_user, ha, hrole]
    have hnil : db.users.filter (fun u => u.name == pyStrip name) = [] := by
      rw [List.filter_eq_nil_iff]
      intro u hu
      simpa using List.any_eq_false.mp ha u hu
    refine ⟨_, heq, ?_, ?_⟩
    · show ((db.users ++
          [({ id := db.next_user_id, name := pyStrip name, role := role } : User)]).filter
          (fun u => u.name == pyStrip name)).map (fun u => u.role) = [role]
      rw [List.filter_append, hnil]
      simp
    · show ((db.users ++
          [({ id := db.next_user_id, name := pyStrip name, role := role } : User)]).filter
          (fun u => u.name == pyStrip name)).length ≤ 1
      rw [List.filter_append, hnil]
      simp

/-- C5: `upsert_user` is an update-in-place upsert keyed by the trimmed
name: from any store with at most one user named Ann, upserting Ann as
tester and then as testlead leaves exactly one user named Ann, with role
testlead; and a repeated call with the same arguments returns the state of
the first call unchanged. -/
theorem claim5_directory_upsert :
    (∀ db : DB, (db.users.filter (fun u => u.name == "Ann")).length ≤ 1 →
      ((orKeep (orKeep db (upsert_user db "Ann" "tester"))
          (upsert_user (orKeep db (upsert_user db "Ann" "tester")) "Ann" "testlead")).users.filter
          (fun u => u.name == "Ann")).map (fun u => u.role) = ["testlead"])
    ∧ (∀ (db db₁ : DB) (n r : String), upsert_user db n r = Except.ok db₁ →
      upsert_user db₁ n r = Except.ok db₁) := by
  constructor
  · intro db hlen
    have hstrip : pyStrip "Ann" = "Ann" := by decide
    have hlen' : (db.users.filter (fun u => u.name == pyStrip "Ann")).length ≤ 1 := by
      rw [hstrip]
      exact hlen
    obtain ⟨db₁, h1, _, hlen1⟩ := upsert_one_name_filter db "Ann" "tester" (by decide) hlen'
    rw [h1]
    simp only [orKeep]
    obtain ⟨db₂, h2, hroles2, _⟩ :=
      upsert_one_name_filter db₁ "Ann" "testlead" (by decide) hlen1
    rw [h2]
    simp only [orKeep]
    rw [← hstrip]
    exact hroles2
  · intro db db₁ n r h
    simp only [upsert_user] at h
    cases ha : db.users.any (fun u => u.name == pyStrip n) with
    | true =>
      cases hr : roleOk r with
      | true =>
        rw [if_neg (ne_true_of_eq_false (by rw [ha]; rfl)),
            if_neg (ne_true_of_eq_false (by rw [ha, hr]; rfl))] at h
        injection h with h'
        subst h'
        simp only [upsert_user]
        have ha2 : (db.users.map (roleUpd (pyStrip n) r)).any
            (fun u => u.name == pyStrip n) = true := by
          rw [users_map_any_name]
          exact ha
        rw [if_neg (ne_true_of_eq_false (by rw [ha2]; rfl)),
            if_neg (ne_true_of_eq_false (by rw [ha2, hr]; rfl))]
        have hmm : (db.users.map (roleUpd (pyStrip n) r)).map (roleUpd (pyStrip n) r)
            = db.users.map (roleUpd (pyStrip n) r) := by
          rw [List.map_map]
          apply List.map_congr_left
          intro u hu
          exact roleUpd_idem (pyStrip n) r u
        rw [hmm]
      | false =>
        rw [if_neg (ne_true_of_eq_false (by rw [ha, hr]; rfl)),
            if_pos (by rw [ha, hr]; rfl)] at h
        exact Except.noConfusion h
    | false =>
      cases hr : roleOk r with
      | true =>
        rw [if_pos (by rw [ha, hr]; rfl)] at h
        injection h with h'
        subst h'
        simp only [upsert_user]
        have hb : (db.users ++
            [({ id := db.next_user_id, name := pyStrip n, role := r } : User)]).any
            (fun u => u.name == pyStrip n) = true := by
          rw [List.any_append]
          simp
        rw [if_neg (ne_true_of_eq_false (by rw [hb]; rfl)),
            if_neg (ne_true_of_eq_false (by rw [hb, hr]; rfl))]
        have hmap : (db.users ++
            [({ id := db.next_user_id, name := pyStrip n, role := r } : User)]).map
              (roleUpd (pyStrip n) r)
            = db.users ++
              [({ id := db.next_user_id, name := pyStrip n, role := r } : User)] := by
          rw [List.map_append]
          congr 1
          · apply map_fix
            intro u hu
            exact roleUpd_of_other (by simpa using List.any_eq_false.mp ha u hu)
          · rw [List.map_singleton, roleUpd_of_name (by simp)]
        rw [hmap]
      | false =>
        rw [if_neg (ne_true_of_eq_false (by rw [ha, hr]; rfl)),
            if_neg (ne_true_of_eq_false (by rw [ha]; rfl))] at h
        injection h with h'
        subst h'
        simp only [upsert_user]
        have ha2 : (db.users.map (roleUpd (pyStrip n) r)).any
            (fun u => u.name == pyStrip n) = false := by
          rw [users_map_any_name]
          exact ha
        rw [if_neg (ne_true_of_eq_false (by rw [ha2, hr]; rfl)),
            if_neg (ne_true_of_eq_false (by rw [ha2]; rfl))]
        have hmm : (db.users.map (roleUpd (pyStrip n) r)).map (roleUpd (pyStrip n) r)
            = db.users.map (roleUpd (pyStrip n) r) := by
          rw [List.map_map]
          apply List.map_congr_left
          intro u hu
          exact roleUpd_idem (pyStrip n) r u
        rw [hmm]

/-- Witness for C5: the two upserts on the empty store leave one Ann with
role testlead. -/
theorem claim5_directory_upsert_witness :
    ((orKeep (orKeep dbEmpty (upsert_user dbEmpty "Ann" "tester"))
        (upsert_user (orKeep dbEmpty (upsert_user dbEmpty "Ann" "tester")) "Ann" "testlead")).users.filter
        (fun u => u.name == "Ann")).map (fun u => u.role) = ["testlead"] :=
  claim5_directory_upsert.1 dbEmpty (by decide)

/-- At most one failure row references any given run. -/
def atMostOneFailurePerRun (db : DB) : Prop :=
  ∀ rid : Nat, (db.failures.filter (fun f => f.run_id == rid)).length ≤ 1

theorem step_failures_eq (db : DB) (op : Op)
    (h : ∀ run sev uid now, op ≠ Op.classifyFailure run sev uid now) :
    (step db op).failures = db.failures := by
  cases op with
  | upsertUser n r =>
    show (orKeep db (upsert_user db n r)).failures = db.failures
    simp only [upsert_user]
    split
    · rfl
    · split
      · rfl
      · rfl
  | createSession n t =>
    show (orKeep db (create_session db n t)).failures = db.failures
    simp only [create_session]
    split
    · rfl
    · rfl
  | closeSession sid =>
    show ((close_session db sid).2).failures = db.failures
    simp only [close_session]
    split
    · rfl
    · rfl
  | addTestCase t s e c a =>
    show (match add_test_case db t s e c a with
      | Except.ok (_, db') => db'
      | Except.error _ => db).failures = db.failures
    simp only [add_test_case]
    by_cases hcond : (!(categoryOk c) || !(userRef db a)
        || db.test_cases.any (fun tc => tc.external_id == some (get_next_external_id db))) = true
    · rw [if_pos hcond]
    · rw [if_neg hcond]
  | recordRun tc sid runner url phase status comment now =>
    show (orKeep db (record_test_run db tc sid runner url phase status comment now)).failures
      = db.failures
    simp only [record_test_run]
    split
    · rfl
    · rfl
  | classifyFailure run sev uid now =>
    exact absurd rfl (h run sev uid now)

theorem filter_run_of_other_nil (l : List Failure) (run : Nat) :
    (l.filter (fun f => !(f.run_id == run))).filter (fun f => f.run_id == run) = [] := by
  rw [List.filter_eq_nil_iff]
  intro f hf
  have h2 := (List.mem_filter.mp hf).2
  simp at h2 ⊢
  exact h2

/-- C6: for every run, the failure table holds at most one classification
row in every state reachable by core operations, and a successful
`classify_failure` call leaves exactly one row for that run carrying the
severity, annotator and timestamp of that (latest) call. -/
theorem claim6_failure_upsert :
    (∀ (db : DB) (op : Op), atMostOneFailurePerRun db → atMostOneFailurePerRun (step db op))
    ∧ (∀ (db : DB) (rid : Nat) (sev : String) (uid : Option Nat) (now : String) (db₂ : DB),
      classify_failure db rid sev uid now = Except.ok db₂ →
      db₂.failures.filter (fun f => f.run_id == rid)
        = [({ id := db.next_failure_id, run_id := rid, severity := sev, noted_by := uid, noted_at := now } : Failure)]) := by
  constructor
  · intro db op hinv
    cases op with
    | classifyFailure run sev uid now =>
      show atMostOneFailurePerRun (orKeep db (classify_failure db run sev uid now))
      simp only [classify_failure]
      split
      · exact hinv
      · intro rid
        show (((db.failures.filter (fun f => !(f.run_id == run))) ++ [({ id := db.next_failure_id, run_id := run, severity := sev, noted_by := uid, noted_at := now } : Failure)]).filter (fun f => f.run_id == rid)).length ≤ 1
        rw [List.filter_append]
        by_cases hrid : rid = run
        · subst hrid
          rw [filter_run_of_other_nil]
          simp
        · have hnew : ([({ id := db.next_failure_id, run_id := run, severity := sev, noted_by := uid, noted_at := now } : Failure)].filter (fun f => f.run_id == rid)) = [] := by
            have : (run == rid) = false := by
              cases hb : (run == rid) with
              | true => exact absurd (beq_iff_eq.mp hb).symm hrid
              | false => rfl
            simp [this]
          rw [hnew, List.append_nil]
          have hsub : List.Sublist
              ((db.failures.filter (fun f => !(f.run_id == run))).filter
                (fun f => f.run_id == rid))
              (db.failures.filter (fun f => f.run_id == rid)) :=
            List.Sublist.filter _ (List.filter_sublist db.failures)
          exact le_trans (List.Sublist.length_le hsub) (hinv rid)
    | upsertUser n r =>
      intro rid
      rw [step_failures_eq db _ (fun a b c d hc => Op.noConfusion hc)]
      exact hinv rid
    | createSession n t =>
      intro rid
      rw [step_failures_eq db _ (fun a b c d hc => Op.noConfusion hc)]
      exact hinv rid
    | closeSession sid =>
      intro rid
      rw [step_failures_eq db _ (fun a b c d hc => Op.noConfusion hc)]
      exact hinv rid
    | addTestCase t s e c a =>
      intro rid
      rw [step_failures_eq db _ (fun a b c d hc => Op.noConfusion hc)]
      exact hinv rid
    | recordRun tc sid runner url phase status comment now =>
      intro rid
      rw [step_failures_eq db _ (fun a b c d hc => Op.noConfusion hc)]
      exact hinv rid
  · intro db rid sev uid now db₂ h
    simp only [classify_failure] at h
    split at h
    · exact Except.noConfusion h
    · injection h with h'
      subst h'
      show (((db.failures.filter (fun f => !(f.run_id == rid))) ++ [({ id := db.next_failure_id, run_id := rid, severity := sev, noted_by := uid, noted_at := now } : Failure)]).filter (fun f => f.run_id == rid)) = _
      rw [List.filter_append, filter_run_of_other_nil]
      simp

/-- Witness for C6: classifying run 1 of the sample store leaves exactly
one failure row for it. -/
theorem claim6_failure_upsert_witness :
    ∃ db₂, classify_failure dbOneCasePassed 1 "minor" none "t3" = Except.ok db₂
      ∧ db₂.failures.filter (fun f => f.run_id == 1)
        = [({ id := 1, run_id := 1, severity := "minor", noted_by := none, noted_at := "t3" } : Failure)] := by
  have h : classify_failure dbOneCasePassed 1 "minor" none "t3"
      = Except.ok { dbOneCasePassed with
          failures := [({ id := 1, run_id := 1, severity := "minor", noted_by := none, noted_at := "t3" } : Failure)]
          next_failure_id := 2 } := by
    decide
  exact ⟨_, h, claim6_failure_upsert.2 dbOneCasePassed 1 "minor" none "t3" _ h⟩

theorem step_sessions_cases (db : DB) (op : Op) :
    (step db op).sessions = db.sessions
    ∨ (∃ name now, op = Op.createSession name now ∧
        (step db op).sessions = db.sessions ++
          [({ id := db.next_session_id, name := pyStrip name, created_at := now, closed := false } : Session)])
    ∨ (∃ sid, op = Op.closeSession sid ∧
        (step db op).sessions = db.sessions.map (fun s =>
          if s.id == sid then { s with closed := true } else s)) := by
  cases op with
  | upsertUser n r =>
    left
    show (orKeep db (upsert_user db n r)).sessions = db.sessions
    simp only [upsert_user]
    split
    · rfl
    · split
      · rfl
      · rfl
  | createSession n t =>
    by_cases hdup : db.sessions.any (fun s => s.name == pyStrip n) = true
    · left
      show (orKeep db (create_session db n t)).sessions = db.sessions
      rw [create_session, if_pos hdup]
      rfl
    · right
      left
      refine ⟨n, t, rfl, ?_⟩
      show (orKeep db (create_session db n t)).sessions = _
      rw [create_session, if_neg hdup]
      rfl
  | closeSession sid =>
    by_cases hc : (db.test_cases.filter (fun tc => !(hasPassedRun db sid tc.id))).length > 0
    · left
      show ((close_session db sid).2).sessions = db.sessions
      simp only [close_session]
      rw [if_pos hc]
    · right
      right
      refine ⟨sid, rfl, ?_⟩
      show ((close_session db sid).2).sessions = _
      simp only [close_session]
      rw [if_neg hc]
  | addTestCase t s e c a =>
    left
    show (match add_test_case db t s e c a with
      | Except.ok (_, db') => db'
      | Except.error _ => db).sessions = db.sessions
    simp only [add_test_case]
    by_cases hcond : (!(categoryOk c) || !(userRef db a)
        || db.test_cases.any (fun tc => tc.external_id == some (get_next_external_id db))) = true
    · rw [if_pos hcond]
    · rw [if_neg hcond]
  | recordRun tc sid runner url phase status comment now =>
    left
    show (orKeep db (record_test_run db tc sid runner url phase status comment now)).sessions
      = db.sessions
    simp only [record_test_run]
    split
    · rfl
    · rfl
  | classifyFailure run sev uid now =>
    left
    show (orKeep db (classify_failure db run sev uid now)).sessions = db.sessions
    simp only [classify_failure]
    split
    · rfl
    · rfl

/-- C8: the closed flag only moves from false to true.  A closed session
stays closed under every core operation; a session that is closed after an
operation was already closed unless the operation was close_session; and
create_session only ever adds sessions with closed = false (there is no
reopen operation: Op enumerates the data layer writes). -/
theorem claim8_closed_monotonic (db : DB) (op : Op) :
    (∀ s ∈ db.sessions, s.closed = true →
      ∃ s', s' ∈ (step db op).sessions ∧ s'.id = s.id ∧ s'.closed = true)
    ∧ (∀ s' ∈ (step db op).sessions, s'.closed = true →
      (∃ s ∈ db.sessions, s.id = s'.id ∧ s.closed = true) ∨ ∃ sid, op = Op.closeSession sid)
    ∧ (∀ name now s', s' ∈ (step db (Op.createSession name now)).sessions →
      s' ∈ db.sessions ∨ s'.closed = false) := by
  refine ⟨?_, ?_, ?_⟩
  · intro s hs hclosed
    rcases step_sessions_cases db op with he | ⟨n, t, hop, he⟩ | ⟨sid, hop, he⟩
    · exact ⟨s, he ▸ hs, rfl, hclosed⟩
    · rw [he]
      exact ⟨s, List.mem_append_left _ hs, rfl, hclosed⟩
    · rw [he]
      refine ⟨if s.id == sid then { s with closed := true } else s,
        List.mem_map_of_mem _ hs, ?_, ?_⟩
      · by_cases hid : (s.id == sid) = true
        · rw [if_pos hid]
        · rw [if_neg hid]
      · by_cases hid : (s.id == sid) = true
        · rw [if_pos hid]
        · rw [if_neg hid]
          exact hclosed
  · intro s' hs' hclosed
    rcases step_sessions_cases db op with he | ⟨n, t, hop, he⟩ | ⟨sid, hop, he⟩
    · left
      exact ⟨s', he ▸ hs', rfl, hclosed⟩
    · rw [he] at hs'
      rcases List.mem_append.mp hs' with h | h
      · left
        exact ⟨s', h, rfl, hclosed⟩
      · exfalso
        simp only [List.mem_singleton] at h
        rw [h] at hclosed
        simp at hclosed
    · right
      exact ⟨sid, hop⟩
  · intro name now s' hs'
    by_cases hdup : db.sessions.any (fun s => s.name == pyStrip name) = true
    · left
      have he : (step db (Op.createSession name now)).sessions = db.sessions := by
        show (orKeep db (create_session db name now)).sessions = db.sessions
        rw [create_session, if_pos hdup]
        rfl
      rw [he] at hs'
      exact hs'
    · have he : (step db (Op.createSession name now)).sessions
          = db.sessions ++ [({ id := db.next_session_id, name := pyStrip name, created_at := now, closed := false } : Session)] := by
        show (orKeep db (create_session db name now)).sessions = _
        rw [create_session, if_neg hdup]
        rfl
      rw [he] at hs'
      rcases List.mem_append.mp hs' with h | h
      · left
        exact h
      · right
        simp only [List.mem_singleton] at h
        rw [h]

/-- Witness for C8: a closed session survives an unrelated upsert. -/
theorem claim8_closed_monotonic_witness :
    ∃ s', s' ∈ (step { dbEmpty with
        sessions := [({ id := 5, name := "done", created_at := "t", closed := true } : Session)] }
      (Op.upsertUser "Bob" "tester")).sessions ∧ s'.id = 5 ∧ s'.closed = true := by
  obtain ⟨s', h1, h2, h3⟩ := (claim8_closed_monotonic { dbEmpty with
      sessions := [({ id := 5, name := "done", created_at := "t", closed := true } : Session)] }
    (Op.upsertUser "Bob" "tester")).1
    { id := 5, name := "done", created_at := "t", closed := true } (by decide) rfl
  exact ⟨s', h1, by rw [h2], h3⟩

end TestMgmt
